import Mathlib

/-!
Shallow embedding of the freepen chat application's security-relevant code:
the client-side message cipher wrapper (`src/lib/encryption.ts`), the
password hashing and verification helpers of the room routes, the
iron-session wrapper (`src/lib/session.ts`), the sliding-window rate
limiter (`src/lib/rate-limit.ts`), and the route handlers for
`/api/auth/room`, `/api/rooms/join` and `/api/messages/send`.

Platform primitives that the repository merely calls (Web Crypto AES-GCM,
Node `crypto.pbkdf2`, `btoa`/`atob`, `TextEncoder`/`TextDecoder`,
DOMPurify) are modelled abstractly: base64 and hex are implemented
concretely from their platform specification, while the ciphers and the
sanitizer are taken as function parameters whose platform-guaranteed
contracts appear as explicit hypotheses of the theorems.

Bytes are modelled as `Nat` values below 256 (`Uint8Array`/`Buffer`
elements); strings as Lean `String` with JavaScript string operations
(`split`, `trim`, `toLowerCase`) re-implemented on `List Char`.
-/

namespace Freepen

/-! ## Byte-level codecs: hex and base64 (platform `Buffer.toString('hex')`, `btoa`/`atob`) -/

/-- Hex digit for a nibble, lowercase, as produced by Node's
`Buffer.prototype.toString('hex')`. -/
def hexDigit (n : Nat) : Char :=
  if n < 10 then Char.ofNat (48 + n) else Char.ofNat (87 + n)

/-- Hex encoding of a byte buffer, two lowercase digits per byte. -/
def hexEncode (bs : List Nat) : String :=
  String.mk (bs.flatMap (fun b => [hexDigit (b / 16), hexDigit (b % 16)]))

/-- Character of the standard base64 alphabet for a sextet. -/
def b64Char (n : Nat) : Char :=
  if n < 26 then Char.ofNat (65 + n)
  else if n < 52 then Char.ofNat (97 + (n - 26))
  else if n < 62 then Char.ofNat (48 + (n - 52))
  else if n = 62 then '+'
  else '/'

/-- Index of a character in the base64 alphabet, `none` for any other
character (including `=`). -/
def b64Val (c : Char) : Option Nat :=
  if 'A' ≤ c ∧ c ≤ 'Z' then some (c.toNat - 65)
  else if 'a' ≤ c ∧ c ≤ 'z' then some (c.toNat - 97 + 26)
  else if '0' ≤ c ∧ c ≤ '9' then some (c.toNat - 48 + 52)
  else if c = '+' then some 62
  else if c = '/' then some 63
  else none

/-- Base64 character stream of a byte buffer, padded with `=` to a
multiple of four characters, as produced by `window.btoa` on the binary
string built in `arrayBufferToBase64`. -/
def base64EncodeChars : List Nat → List Char
  | [] => []
  | [a] => [b64Char (a / 4), b64Char (a % 4 * 16), '=', '=']
  | [a, b] => [b64Char (a / 4), b64Char (a % 4 * 16 + b / 16), b64Char (b % 16 * 4), '=']
  | a :: b :: c :: rest =>
      b64Char (a / 4) :: b64Char (a % 4 * 16 + b / 16) ::
        b64Char (b % 16 * 4 + c / 64) :: b64Char (c % 64) :: base64EncodeChars rest

/-- The base64 character stream with the final padding removed. -/
def base64BodyChars : List Nat → List Char
  | [] => []
  | [a] => [b64Char (a / 4), b64Char (a % 4 * 16)]
  | [a, b] => [b64Char (a / 4), b64Char (a % 4 * 16 + b / 16), b64Char (b % 16 * 4)]
  | a :: b :: c :: rest =>
      b64Char (a / 4) :: b64Char (a % 4 * 16 + b / 16) ::
        b64Char (b % 16 * 4 + c / 64) :: b64Char (c % 64) :: base64BodyChars rest

/-- `arrayBufferToBase64`: bytes to base64 string via `window.btoa`. -/
def base64Encode (bs : List Nat) : String :=
  String.mk (base64EncodeChars bs)

/-- Strip at most two trailing `=` characters (the padding phase of the
WHATWG forgiving-base64 decode used by `window.atob`). -/
def stripPad (cs : List Char) : List Char :=
  match cs.reverse with
  | '=' :: '=' :: r => r.reverse
  | '=' :: r => r.reverse
  | _ => cs

/-- Decode a padding-free base64 character stream into bytes; `none` on a
character outside the alphabet or a leftover length of 1. Trailing bits of
a final 2- or 3-character group are discarded, as forgiving-base64 does. -/
def b64DecodeGroups : List Char → Option (List Nat)
  | [] => some []
  | [_] => none
  | [c1, c2] =>
      match b64Val c1, b64Val c2 with
      | some v1, some v2 => some [v1 * 4 + v2 / 16]
      | _, _ => none
  | [c1, c2, c3] =>
      match b64Val c1, b64Val c2, b64Val c3 with
      | some v1, some v2, some v3 => some [v1 * 4 + v2 / 16, v2 % 16 * 16 + v3 / 4]
      | _, _, _ => none
  | c1 :: c2 :: c3 :: c4 :: rest =>
      match b64Val c1, b64Val c2, b64Val c3, b64Val c4, b64DecodeGroups rest with
      | some v1, some v2, some v3, some v4, some tail =>
          some ((v1 * 4 + v2 / 16) :: (v2 % 16 * 16 + v3 / 4) :: (v3 % 4 * 64 + v4) :: tail)
      | _, _, _, _, _ => none

/-- `base64ToArrayBuffer`: base64 string to bytes via `window.atob`,
modelled on the WHATWG forgiving-base64 decode: drop whitespace, strip
padding when the length is a multiple of four, fail on a leftover length
of one or on characters outside the alphabet. -/
def base64Decode (s : String) : Option (List Nat) :=
  let cs := s.data.filter (fun c => !c.isWhitespace)
  let cs := if cs.length % 4 == 0 then stripPad cs else cs
  if cs.length % 4 == 1 then none else b64DecodeGroups cs

/-- Facts about the base64 alphabet needed below, checked by evaluation. -/
theorem b64Char_facts : ∀ n < 64,
    b64Val (b64Char n) = some n ∧ b64Char n ≠ '=' ∧ (b64Char n).isWhitespace = false := by
  decide

theorem b64Char_ne_eq {n : Nat} (h : n < 64) : b64Char n ≠ '=' :=
  (b64Char_facts n h).2.1

theorem b64Char_not_ws {n : Nat} (h : n < 64) : (b64Char n).isWhitespace = false :=
  (b64Char_facts n h).2.2

theorem b64Val_b64Char {n : Nat} (h : n < 64) : b64Val (b64Char n) = some n :=
  (b64Char_facts n h).1

theorem base64EncodeChars_length (bs : List Nat) :
    (base64EncodeChars bs).length % 4 = 0 := by
  induction bs using base64EncodeChars.induct with
  | case1 => simp [base64EncodeChars]
  | case2 a => simp [base64EncodeChars]
  | case3 a b => simp [base64EncodeChars]
  | case4 a b c rest ih =>
      simp only [base64EncodeChars, List.length_cons]
      omega

theorem base64BodyChars_length (bs : List Nat) :
    (base64BodyChars bs).length % 4 ≠ 1 := by
  induction bs using base64BodyChars.induct with
  | case1 => simp [base64BodyChars]
  | case2 a => simp [base64BodyChars]
  | case3 a b => simp [base64BodyChars]
  | case4 a b c rest ih =>
      simp only [base64BodyChars, List.length_cons]
      omega

theorem base64EncodeChars_not_ws :
    ∀ bs : List Nat, (∀ x ∈ bs, x < 256) →
      ∀ c ∈ base64EncodeChars bs, (!c.isWhitespace) = true := by
  intro bs
  induction bs using base64EncodeChars.induct with
  | case1 =>
      intro _ c hc
      simp [base64EncodeChars] at hc
  | case2 a =>
      intro h c hc
      have ha : a < 256 := h a (by simp)
      simp only [base64EncodeChars, List.mem_cons, List.not_mem_nil, or_false] at hc
      rcases hc with rfl | rfl | rfl | rfl
      · simp [b64Char_not_ws (show a / 4 < 64 by omega)]
      · simp [b64Char_not_ws (show a % 4 * 16 < 64 by omega)]
      · decide
      · decide
  | case3 a b =>
      intro h c hc
      have ha : a < 256 := h a (by simp)
      have hb : b < 256 := h b (by simp)
      simp only [base64EncodeChars, List.mem_cons, List.not_mem_nil, or_false] at hc
      rcases hc with rfl | rfl | rfl | rfl
      · simp [b64Char_not_ws (show a / 4 < 64 by omega)]
      · simp [b64Char_not_ws (show a % 4 * 16 + b / 16 < 64 by omega)]
      · simp [b64Char_not_ws (show b % 16 * 4 < 64 by omega)]
      · decide
  | case4 a b c rest ih =>
      intro h d hd
      have ha : a < 256 := h a (by simp)
      have hb : b < 256 := h b (by simp)
      have hc : c < 256 := h c (by simp)
      simp only [base64EncodeChars, List.mem_cons] at hd
      rcases hd with rfl | rfl | rfl | rfl | hd
      · simp [b64Char_not_ws (show a / 4 < 64 by omega)]
      · simp [b64Char_not_ws (show a % 4 * 16 + b / 16 < 64 by omega)]
      · simp [b64Char_not_ws (show b % 16 * 4 + c / 64 < 64 by omega)]
      · simp [b64Char_not_ws (show c % 64 < 64 by omega)]
      · exact ih (fun x hx => h x (by simp [hx])) d hd

theorem stripPad_of_rev_two {cs r : List Char} (h : cs.reverse = '=' :: '=' :: r) :
    stripPad cs = r.reverse := by
  unfold stripPad
  rw [h]
  split
  · rename_i r' heq
    injection heq with _ h2
    injection h2 with _ h3
    rw [h3]
  · rename_i r' hne heq
    injection heq with _ h2
    exact absurd h2.symm (hne r)
  · rename_i hne1 hne2
    exact absurd rfl (hne1 r)

theorem stripPad_of_rev_one {cs : List Char} {y : Char} {t : List Char}
    (h : cs.reverse = '=' :: y :: t) (hy : y ≠ '=') :
    stripPad cs = (y :: t).reverse := by
  unfold stripPad
  rw [h]
  split
  · rename_i r' heq
    injection heq with _ h2
    injection h2 with h3 _
    exact absurd h3 hy
  · rename_i r' hne heq
    injection heq with _ h2
    rw [h2]
  · rename_i hne1 hne2
    exact absurd rfl (hne2 (y :: t))

theorem stripPad_of_rev_ne {cs : List Char} {y : Char} {t : List Char}
    (h : cs.reverse = y :: t) (hy : y ≠ '=') : stripPad cs = cs := by
  unfold stripPad
  rw [h]
  split
  · rename_i r' heq
    injection heq with h2 _
    exact absurd h2 hy
  · rename_i r' hne heq
    injection heq with h2 _
    exact absurd h2 hy
  · rfl

theorem stripPad_no_pad {g : List Char} (hg : ∀ c ∈ g, c ≠ '=') : stripPad g = g := by
  cases hr : g.reverse with
  | nil => unfold stripPad; rw [hr]
  | cons y t =>
      have hy : y ∈ g := by
        have : y ∈ g.reverse := by rw [hr]; exact List.mem_cons_self y t
        simpa using this
      exact stripPad_of_rev_ne hr (hg y hy)

theorem stripPad_encode :
    ∀ (bs : List Nat) (g : List Char), (∀ x ∈ bs, x < 256) → (∀ c ∈ g, c ≠ '=') →
      stripPad (g ++ base64EncodeChars bs) = g ++ base64BodyChars bs := by
  intro bs
  induction bs using base64EncodeChars.induct with
  | case1 =>
      intro g _ hg
      simp only [base64EncodeChars, base64BodyChars, List.append_nil]
      exact stripPad_no_pad hg
  | case2 a =>
      intro g h hg
      have hrev : (g ++ base64EncodeChars [a]).reverse
          = '=' :: '=' :: (b64Char (a % 4 * 16) :: b64Char (a / 4) :: g.reverse) := by
        simp [base64EncodeChars]
      rw [stripPad_of_rev_two hrev]
      simp [base64BodyChars]
  | case3 a b =>
      intro g h hg
      have hb : b < 256 := h b (by simp)
      have hx3 : b64Char (b % 16 * 4) ≠ '=' := b64Char_ne_eq (by omega)
      have hrev : (g ++ base64EncodeChars [a, b]).reverse
          = '=' :: b64Char (b % 16 * 4) ::
              (b64Char (a % 4 * 16 + b / 16) :: b64Char (a / 4) :: g.reverse) := by
        simp [base64EncodeChars]
      rw [stripPad_of_rev_one hrev hx3]
      simp [base64BodyChars]
  | case4 a b c rest ih =>
      intro g h hg
      have ha : a < 256 := h a (by simp)
      have hb : b < 256 := h b (by simp)
      have hc : c < 256 := h c (by simp)
      have hrest : ∀ x ∈ rest, x < 256 := fun x hx => h x (by simp [hx])
      have hg' : ∀ d ∈ g ++ [b64Char (a / 4), b64Char (a % 4 * 16 + b / 16),
          b64Char (b % 16 * 4 + c / 64), b64Char (c % 64)], d ≠ '=' := by
        intro d hd
        rcases List.mem_append.1 hd with hd | hd
        · exact hg d hd
        · simp only [List.mem_cons, List.not_mem_nil, or_false] at hd
          rcases hd with rfl | rfl | rfl | rfl
          · exact b64Char_ne_eq (by omega)
          · exact b64Char_ne_eq (by omega)
          · exact b64Char_ne_eq (by omega)
          · exact b64Char_ne_eq (by omega)
      have hstep : g ++ base64EncodeChars (a :: b :: c :: rest)
          = (g ++ [b64Char (a / 4), b64Char (a % 4 * 16 + b / 16),
              b64Char (b % 16 * 4 + c / 64), b64Char (c % 64)]) ++ base64EncodeChars rest := by
        simp [base64EncodeChars]
      rw [hstep, ih _ hrest hg']
      simp [base64BodyChars]

theorem b64DecodeGroups_body :
    ∀ bs : List Nat, (∀ x ∈ bs, x < 256) →
      b64DecodeGroups (base64BodyChars bs) = some bs := by
  intro bs
  induction bs using base64BodyChars.induct with
  | case1 => intro _; rfl
  | case2 a =>
      intro h
      have ha : a < 256 := h a (by simp)
      simp only [base64BodyChars, b64DecodeGroups,
        b64Val_b64Char (show a / 4 < 64 by omega),
        b64Val_b64Char (show a % 4 * 16 < 64 by omega), Option.some_bind]
      have : a / 4 * 4 + a % 4 * 16 / 16 = a := by omega
      rw [this]
  | case3 a b =>
      intro h
      have ha : a < 256 := h a (by simp)
      have hb : b < 256 := h b (by simp)
      simp only [base64BodyChars, b64DecodeGroups,
        b64Val_b64Char (show a / 4 < 64 by omega),
        b64Val_b64Char (show a % 4 * 16 + b / 16 < 64 by omega),
        b64Val_b64Char (show b % 16 * 4 < 64 by omega), Option.some_bind]
      have h1 : a / 4 * 4 + (a % 4 * 16 + b / 16) / 16 = a := by omega
      have h2 : (a % 4 * 16 + b / 16) % 16 * 16 + b % 16 * 4 / 4 = b := by omega
      rw [h1, h2]
  | case4 a b c rest ih =>
      intro h
      have ha : a < 256 := h a (by simp)
      have hb : b < 256 := h b (by simp)
      have hc : c < 256 := h c (by simp)
      have hrest : ∀ x ∈ rest, x < 256 := fun x hx => h x (by simp [hx])
      simp only [base64BodyChars, b64DecodeGroups,
        b64Val_b64Char (show a / 4 < 64 by omega),
        b64Val_b64Char (show a % 4 * 16 + b / 16 < 64 by omega),
        b64Val_b64Char (show b % 16 * 4 + c / 64 < 64 by omega),
        b64Val_b64Char (show c % 64 < 64 by omega), Option.some_bind,
        ih hrest]
      have h1 : a / 4 * 4 + (a % 4 * 16 + b / 16) / 16 = a := by omega
      have h2 : (a % 4 * 16 + b / 16) % 16 * 16 + (b % 16 * 4 + c / 64) / 4 = b := by omega
      have h3 : (b % 16 * 4 + c / 64) % 4 * 64 + c % 64 = c := by omega
      rw [h1, h2, h3]

/-- Decoding inverts encoding on any byte buffer: the platform pair
`atob ∘ btoa` is the identity on binary strings. -/
theorem base64_roundtrip (bs : List Nat) (h : ∀ x ∈ bs, x < 256) :
    base64Decode (base64Encode bs) = some bs := by
  have hfilter : (base64Encode bs).data.filter (fun c => !c.isWhitespace)
      = base64EncodeChars bs := List.filter_eq_self.mpr (base64EncodeChars_not_ws bs h)
  have hlen := base64EncodeChars_length bs
  have hstrip : stripPad (base64EncodeChars bs) = base64BodyChars bs := by
    simpa using stripPad_encode bs [] h (by intro c hc; simp at hc)
  have hblen : ((base64BodyChars bs).length % 4 == 1) = false := by
    simp only [beq_eq_false_iff_ne, ne_eq]
    exact base64BodyChars_length bs
  unfold base64Decode
  simp only [hfilter, hlen, hstrip, hblen]
  simp [hblen]
  exact b64DecodeGroups_body bs h

/-- Base64 encoding is injective on byte buffers. -/
theorem base64Encode_inj {b1 b2 : List Nat}
    (h1 : ∀ x ∈ b1, x < 256) (h2 : ∀ x ∈ b2, x < 256) (hne : b1 ≠ b2) :
    base64Encode b1 ≠ base64Encode b2 := by
  intro he
  have r1 := base64_roundtrip b1 h1
  rw [he, base64_roundtrip b2 h2] at r1
  exact hne (Option.some.inj r1).symm

/-! ## JavaScript string operations used by the routes -/

/-- JavaScript `String.prototype.trim` (restricted to ASCII whitespace). -/
def jsTrim (s : String) : String :=
  String.mk (((s.data.dropWhile Char.isWhitespace).reverse.dropWhile Char.isWhitespace).reverse)

/-- Worker for `jsSplit`: accumulate the current segment in reverse. -/
def splitCharAux (sep : Char) : List Char → List Char → List (List Char)
  | [], acc => [acc.reverse]
  | c :: rest, acc =>
      if c = sep then acc.reverse :: splitCharAux sep rest []
      else splitCharAux sep rest (c :: acc)

/-- JavaScript `String.prototype.split` with a one-character separator. -/
def jsSplit (sep : Char) (s : String) : List String :=
  (splitCharAux sep s.data []).map String.mk

theorem splitCharAux_no_sep (sep : Char) :
    ∀ (xs acc : List Char), sep ∉ xs →
      splitCharAux sep xs acc = [acc.reverse ++ xs] := by
  intro xs
  induction xs with
  | nil => intro acc _; simp [splitCharAux]
  | cons c rest ih =>
      intro acc hns
      have hc : c ≠ sep := fun hch => hns (hch ▸ List.mem_cons_self c rest)
      have hrest : sep ∉ rest := fun hm => hns (List.mem_cons_of_mem c hm)
      simp only [splitCharAux, if_neg (fun hh => hc hh)]
      rw [ih (c :: acc) hrest]
      simp

theorem splitCharAux_found (sep : Char) :
    ∀ (xs ys acc : List Char), sep ∉ xs →
      splitCharAux sep (xs ++ sep :: ys) acc
        = (acc.reverse ++ xs) :: splitCharAux sep ys [] := by
  intro xs
  induction xs with
  | nil =>
      intro ys acc _
      simp [splitCharAux]
  | cons c rest ih =>
      intro ys acc hns
      have hc : c ≠ sep := fun hch => hns (hch ▸ List.mem_cons_self c rest)
      have hrest : sep ∉ rest := fun hm => hns (List.mem_cons_of_mem c hm)
      simp only [List.cons_append, splitCharAux, if_neg (fun hh => hc hh), List.append_eq]
      rw [ih ys (c :: acc) hrest]
      simp

theorem splitCharAux_head (sep : Char) :
    ∀ (xs acc : List Char),
      (splitCharAux sep xs acc).headD []
        = acc.reverse ++ xs.takeWhile (fun c => !(c == sep)) := by
  intro xs
  induction xs with
  | nil => intro acc; simp [splitCharAux]
  | cons c rest ih =>
      intro acc
      by_cases hc : c = sep
      · subst hc
        simp [splitCharAux, List.takeWhile_cons]
      · simp only [splitCharAux, if_neg hc]
        rw [ih (c :: acc)]
        simp [List.takeWhile_cons, hc]

/-- Splitting `a ++ ":" ++ b` on `':'` gives exactly `[a, b]` when neither
side contains a colon. -/
theorem jsSplit_colon_pair (a b : String)
    (ha : ':' ∉ a.data) (hb : ':' ∉ b.data) :
    jsSplit ':' (a ++ ":" ++ b) = [a, b] := by
  have hdata : (a ++ ":" ++ b).data = a.data ++ ':' :: b.data := by
    simp [String.data_append]
  unfold jsSplit
  rw [hdata, splitCharAux_found ':' a.data b.data [] ha,
    splitCharAux_no_sep ':' b.data [] hb]
  simp [List.map_cons]

/-! ## Message cipher (`src/lib/encryption.ts`)

The Web Crypto AES-GCM primitive is abstract: the wrapper code only
threads buffers through it. `TextEncoder`/`TextDecoder` are likewise
abstract UTF-8 codec parameters. -/

/-- Abstract Web Crypto AES-GCM: `enc key iv plaintext` is the
ciphertext-plus-tag buffer of `crypto.subtle.encrypt`; `dec key iv ct` is
`some plaintext` on success and `none` when the platform call rejects
(tampered ciphertext, wrong key, wrong IV). -/
structure AesGcm where
  enc : List Nat → List Nat → List Nat → List Nat
  dec : List Nat → List Nat → List Nat → Option (List Nat)

/-- Result record of `encryptMessage`. -/
structure EncryptedMessage where
  encryptedText : String
  iv : String
  deriving DecidableEq

/-- `encryptMessage(text, key)`: draw a fresh random 12-byte IV from the
random source `rng` (`crypto.getRandomValues(new Uint8Array(12))`), encode
the text (`TextEncoder.encode`, the parameter `te`), AES-GCM-encrypt, and
base64-encode both ciphertext and IV. -/
def encryptMessage (A : AesGcm) (te : String → List Nat) (rng : Nat → List Nat)
    (text : String) (key : List Nat) : EncryptedMessage :=
  let iv := rng 12
  let data := te text
  let encryptedBuffer := A.enc key iv data
  { encryptedText := base64Encode encryptedBuffer, iv := base64Encode iv }

/-- The fallible body of `decryptMessage` (the `try` block): base64-decode
ciphertext and IV, AES-GCM-decrypt, and decode the plaintext bytes
(`TextDecoder.decode`, the parameter `td`). `none` is the thrown-error
case. -/
def decryptAttempt (A : AesGcm) (td : List Nat → String)
    (encryptedText iv : String) (key : List Nat) : Option String :=
  match base64Decode encryptedText with
  | none => none
  | some encryptedBuffer =>
      match base64Decode iv with
      | none => none
      | some ivBuffer =>
          match A.dec key ivBuffer encryptedBuffer with
          | none => none
          | some decryptedBuffer => some (td decryptedBuffer)

/-- `decryptMessage(encryptedText, iv, key)`: the `try`/`catch` wrapper —
any failure of the body yields the fixed sentinel string. -/
def decryptMessage (A : AesGcm) (td : List Nat → String)
    (encryptedText iv : String) (key : List Nat) : String :=
  match decryptAttempt A td encryptedText iv key with
  | some s => s
  | none => "[Encrypted message - cannot decrypt]"

/-! ## Password hashing (room routes)

Node's `crypto.pbkdf2(password, salt, iterations, keylen, digest)` is an
abstract deterministic function parameter producing the derived key
bytes. -/

/-- Signature of Node `crypto.pbkdf2`: password, salt, iterations, key
length, digest name, giving the derived key bytes. -/
abbrev Pbkdf2 := String → String → Nat → Nat → String → List Nat

namespace RoomsCreate

/-- `hashPassword` of `src/app/api/rooms/create/route.ts`: hex-encode a
16-byte random salt (`saltBytes`, from `crypto.randomBytes(16)`), derive a
64-byte PBKDF2-SHA-512 key with 10,000 iterations, and store
`salt + ':' + hash`, both hex-encoded. -/
def hashPassword (pb : Pbkdf2) (saltBytes : List Nat) (password : String) : String :=
  let salt := hexEncode saltBytes
  salt ++ ":" ++ hexEncode (pb password salt 10000 64 "sha512")

end RoomsCreate

namespace RoomsJoin

/-- `verifyPassword` of `src/app/api/rooms/join/route.ts`: destructure
`storedHash.split(':')` into salt and hash (the hash component is
`undefined`, modelled `none`, when there is no colon), re-derive with the
same parameters and compare; `undefined === hex` is `false`. -/
def verifyPassword (pb : Pbkdf2) (password storedHash : String) : Bool :=
  let parts := jsSplit ':' storedHash
  let salt := parts.headD ""
  match parts[1]? with
  | none => false
  | some hash => hash == hexEncode (pb password salt 10000 64 "sha512")

end RoomsJoin

namespace AuthRoom

/-- `verifyPassword` of `src/app/api/auth/room/route.ts`: like the join
route's, but throws `'Invalid hash format'` when the salt or hash
component is missing or empty (`!salt || !hash`). The thrown error is the
`Except.error` case. -/
def verifyPassword (pb : Pbkdf2) (password storedHash : String) : Except String Bool :=
  let parts := jsSplit ':' storedHash
  let salt := (parts[0]?).getD ""
  let hash := (parts[1]?).getD ""
  if salt = "" ∨ hash = "" then .error "Invalid hash format"
  else .ok (hash == hexEncode (pb password salt 10000 64 "sha512"))

end AuthRoom

/-! ## Session state (`src/lib/session.ts`) -/

/-- The iron-session data structure `SessionData`. -/
structure SessionData where
  userId : String
  userName : String
  authenticatedRooms : List String
  isLoggedIn : Bool
  csrfToken : String
  deriving DecidableEq

/-- `getSession`: read the cookie store; a session that is not logged in
is (re-)initialized to the blank state. -/
def getSessionFrom (stored : SessionData) : SessionData :=
  if stored.isLoggedIn then stored
  else { userId := "", userName := "", authenticatedRooms := [], isLoggedIn := false, csrfToken := "" }

/-- `createSession(userName)`: fresh `userId` and `csrfToken` (random
UUIDs, passed in), logged in, empty room list; saved to the store. -/
def createSession (userName userId csrfToken : String) : SessionData :=
  { userId := userId, userName := userName, authenticatedRooms := [],
    isLoggedIn := true, csrfToken := csrfToken }

/-- `addAuthenticatedRoom(roomId)`: push the room id onto
`authenticatedRooms` unless it is already present. -/
def addAuthenticatedRoom (s : SessionData) (roomId : String) : SessionData :=
  if s.authenticatedRooms.contains roomId then s
  else { s with authenticatedRooms := s.authenticatedRooms ++ [roomId] }

/-- `isRoomAuthenticated(session, roomId)`: membership test. -/
def isRoomAuthenticated (s : SessionData) (roomId : String) : Bool :=
  s.authenticatedRooms.contains roomId

/-- `verifyCsrfToken(session, token)`: exact string equality. -/
def verifyCsrfToken (s : SessionData) (token : String) : Bool :=
  s.csrfToken == token

/-! ## Rate limiter (`src/lib/rate-limit.ts`) -/

namespace RateLimit

/-- One `check(request, limit)` call for a single cache key, as a pure
state transition on that key's timestamp list: drop timestamps older than
the interval, throw (`false`, cache unchanged) when the remaining count
reaches the limit, else record the current timestamp. Subtraction is
truncated as in the JavaScript comparison `now - timestamp < interval`
for timestamps not exceeding `now`. -/
def checkStep (interval limit : Nat) (ts : List Nat) (now : Nat) : Bool × List Nat :=
  let validTokens := ts.filter (fun t => now - t < interval)
  if limit ≤ validTokens.length then (false, ts)
  else (true, validTokens ++ [now])

/-- Run a sequence of `check` calls for one key, starting from timestamp
list `s`; returns the final list and the number of accepted calls. -/
def runCalls (interval limit : Nat) : List Nat → List Nat → List Nat × Nat
  | s, [] => (s, 0)
  | s, now :: rest =>
      let r := checkStep interval limit s now
      let next := runCalls interval limit r.2 rest
      (next.1, (if r.1 then 1 else 0) + next.2)

end RateLimit

/-- `getToken(request)`: the first comma-separated entry of the
`X-Forwarded-For` header, trimmed, when the header is present and not
whitespace-only; otherwise the constant `'127.0.0.1'`. -/
def getToken (forwardedFor : Option String) : String :=
  match forwardedFor with
  | none => "127.0.0.1"
  | some f =>
      if f = "" then "127.0.0.1"
      else if jsTrim f = "" then "127.0.0.1"
      else jsTrim ((jsSplit ',' f).headD "")

/-! ## Message sanitization (`src/app/api/messages/send/route.ts`) -/

/-- Is `c` a word character for the `\w` regex class. -/
def isWordChar (c : Char) : Bool := c.isAlphanum || c == '_'

/-- Does `needle` occur as a leading run of `hay`. -/
def startsWithSeq : List Char → List Char → Bool
  | [], _ => true
  | _ :: _, [] => false
  | a :: as, b :: bs => a == b && startsWithSeq as bs

/-- Does `needle` occur anywhere in `hay`. -/
def containsSeq (needle : List Char) : List Char → Bool
  | [] => needle.isEmpty
  | c :: rest => startsWithSeq needle (c :: rest) || containsSeq needle rest

/-- Does the text start with the regex `on\w+\s*=` (an HTML event-handler
attribute). -/
def onAttrAt : List Char → Bool
  | 'o' :: 'n' :: rest =>
      let w := rest.takeWhile isWordChar
      !w.isEmpty &&
        (match (rest.drop w.length).dropWhile Char.isWhitespace with
         | '=' :: _ => true
         | _ => false)
  | _ => false

/-- Does `on\w+\s*=` match at any position. -/
def anySuffixHasOnAttr : List Char → Bool
  | [] => false
  | c :: rest => onAttrAt (c :: rest) || anySuffixHasOnAttr rest

/-- The XSS-detection regex
`/<script|javascript:|on\w+\s*=|data:text\/html/i` of the send route,
evaluated on the lowercased text. -/
def containsSuspicious (text : String) : Bool :=
  let l := text.data.map Char.toLower
  containsSeq "<script".data l || containsSeq "javascript:".data l
    || anySuffixHasOnAttr l || containsSeq "data:text/html".data l

/-- Does the string contain a `<script` tag (lowercased comparison). -/
def hasScriptTag (s : String) : Bool :=
  containsSeq "<script".data (s.data.map Char.toLower)

/-- JavaScript truthiness of the optional `iv` request field (absent or
empty string are falsy). -/
def ivTruthy : Option String → Bool
  | none => false
  | some s => !(s == "")

/-- JavaScript truthiness of the optional `encrypted` request field. -/
def encTruthy : Option Bool → Bool
  | none => false
  | some b => b

/-- Storage decision of the send route (lines handling `messageData`):
messages flagged encrypted with an IV are stored as-is; otherwise the
text is sanitized (`DOMPurify.sanitize` with no allowed tags, the
parameter `sanitize`) and an XSS-attempt security event is logged when
the text matched the suspicious-content regex or sanitization changed
it. Returns the stored text and whether the event was logged. -/
def sendMessageStore (sanitize : String → String) (text : String)
    (encrypted : Option Bool) (iv : Option String) : String × Bool :=
  if encTruthy encrypted && ivTruthy iv then (text, false)
  else
    let containsSuspiciousContent := containsSuspicious text
    let sanitizedText := sanitize text
    (sanitizedText, containsSuspiciousContent || !(sanitizedText == text))

/-! ## Route handlers -/

/-- A stored room document: the fields the handlers read. -/
structure RoomData where
  name : String
  passwordHash : String
  deriving DecidableEq

namespace AuthRoom

/-- Parsed body of `POST /api/auth/room`. -/
structure AuthRequest where
  roomId : String
  password : String
  csrfToken : String
  deriving DecidableEq

/-- The zod schema of the route: every field non-empty. -/
def schemaOk (r : AuthRequest) : Bool :=
  !(r.roomId == "") && !(r.password == "") && !(r.csrfToken == "")

/-- First zod validation error message, in field order. -/
def schemaError (r : AuthRequest) : String :=
  if r.roomId == "" then "Room ID is required"
  else if r.password == "" then "Password is required"
  else "CSRF token is required"

/-- Observable outcome of the `POST /api/auth/room` handler. -/
structure AuthResponse where
  status : Nat
  error : Option String
  authenticated : Bool
  roomId : Option String
  delayed : Bool
  passwordChecked : Bool
  store : SessionData
  deriving DecidableEq

/-- The `POST /api/auth/room` handler, as a function of the rate-limit
outcome, the cookie store, the parsed body and the room lookup result.
Branch order follows the source: rate limit, login check, schema
validation, CSRF comparison, already-authenticated short-circuit, room
lookup, password verification (whose thrown error is caught by the
handler's catch-all, producing the generic 500). `passwordChecked`
records whether `verifyPassword` was invoked. -/
def post (pb : Pbkdf2) (rateLimitOk : Bool) (stored : SessionData)
    (req : AuthRequest) (room? : Option RoomData) : AuthResponse :=
  let session := getSessionFrom stored
  if !rateLimitOk then
    { status := 429, error := some "Rate limit exceeded. Please try again later.",
      authenticated := false, roomId := none, delayed := true,
      passwordChecked := false, store := stored }
  else if !session.isLoggedIn then
    { status := 401, error := some "You must be logged in to authenticate for a room",
      authenticated := false, roomId := none, delayed := false,
      passwordChecked := false, store := stored }
  else if !schemaOk req then
    { status := 400, error := some (schemaError req),
      authenticated := false, roomId := none, delayed := false,
      passwordChecked := false, store := stored }
  else if !(session.csrfToken == req.csrfToken) then
    { status := 403, error := some "Invalid CSRF token",
      authenticated := false, roomId := none, delayed := false,
      passwordChecked := false, store := stored }
  else if isRoomAuthenticated session req.roomId then
    { status := 200, error := none, authenticated := true,
      roomId := some req.roomId, delayed := false,
      passwordChecked := false, store := stored }
  else
    match room? with
    | none =>
        { status := 404, error := some "Room not found",
          authenticated := false, roomId := none, delayed := true,
          passwordChecked := false, store := stored }
    | some room =>
        match verifyPassword pb req.password room.passwordHash with
        | .error _ =>
            { status := 500, error := some "Failed to authenticate for room",
              authenticated := false, roomId := none, delayed := false,
              passwordChecked := true, store := stored }
        | .ok false =>
            { status := 401, error := some "Incorrect password",
              authenticated := false, roomId := none, delayed := true,
              passwordChecked := true, store := stored }
        | .ok true =>
            { status := 200, error := none, authenticated := true,
              roomId := some req.roomId, delayed := false,
              passwordChecked := true,
              store := addAuthenticatedRoom session req.roomId }

end AuthRoom

namespace RoomsJoin

/-- Parsed body of `POST /api/rooms/join`. -/
structure JoinRequest where
  roomId : String
  password : String
  userName : String
  deriving DecidableEq

/-- The zod schema of the route: every field non-empty. -/
def schemaOk (r : JoinRequest) : Bool :=
  !(r.roomId == "") && !(r.password == "") && !(r.userName == "")

/-- First zod validation error message, in field order. -/
def schemaError (r : JoinRequest) : String :=
  if r.roomId == "" then "Room ID is required"
  else if r.password == "" then "Password is required"
  else "User name is required"

/-- Observable outcome of the `POST /api/rooms/join` handler. `userName`
is the `userName` field of the JSON response (`session.userName` of the
handler's local session object); `store` is the cookie store after the
handler. -/
structure JoinResponse where
  status : Nat
  error : Option String
  roomId : Option String
  name : Option String
  userName : Option String
  delayed : Bool
  store : SessionData
  deriving DecidableEq

/-- The `POST /api/rooms/join` handler. Branch order follows the source:
rate limit (with brute-force delay), schema validation, room lookup
(delay + 404), password verification (delay + 401 on mismatch), then
session update: `createSession` replaces the stored session for a
not-logged-in user (the handler's local `session` object keeps its old
`userName`), a logged-in user's `userName` is updated in place when the
request carries a non-blank name, and `addAuthenticatedRoom` appends the
room to the saved session. -/
def post (pb : Pbkdf2) (rateLimitOk : Bool) (stored : SessionData)
    (newUserId newCsrfToken : String) (req : JoinRequest)
    (room? : Option RoomData) : JoinResponse :=
  if !rateLimitOk then
    { status := 429, error := some "Rate limit exceeded. Please try again later.",
      roomId := none, name := none, userName := none, delayed := true, store := stored }
  else if !schemaOk req then
    { status := 400, error := some (schemaError req),
      roomId := none, name := none, userName := none, delayed := false, store := stored }
  else
    match room? with
    | none =>
        { status := 404, error := some "Room not found",
          roomId := none, name := none, userName := none, delayed := true, store := stored }
    | some room =>
        if !(verifyPassword pb req.password room.passwordHash) then
          { status := 401, error := some "Incorrect password",
            roomId := none, name := none, userName := none, delayed := true, store := stored }
        else
          let session := getSessionFrom stored
          let localSession :=
            if !session.isLoggedIn then session
            else if !(req.userName == "") && !(jsTrim req.userName == "") then
              { session with userName := jsTrim req.userName }
            else session
          let storeAfter :=
            if !session.isLoggedIn then createSession req.userName newUserId newCsrfToken
            else localSession
          let storeFinal := addAuthenticatedRoom storeAfter req.roomId
          { status := 200, error := none, roomId := some req.roomId,
            name := some room.name, userName := some localSession.userName,
            delayed := false, store := storeFinal }

end RoomsJoin

/-! ## Helper lemmas -/

theorem hexDigit_ne_colon : ∀ n < 16, hexDigit n ≠ ':' := by decide

theorem hexEncode_no_colon (bs : List Nat) (h : ∀ x ∈ bs, x < 256) :
    ':' ∉ (hexEncode bs).data := by
  intro hmem
  have hdata : (hexEncode bs).data
      = bs.flatMap (fun b => [hexDigit (b / 16), hexDigit (b % 16)]) := rfl
  rw [hdata] at hmem
  rcases List.mem_flatMap.1 hmem with ⟨b, hb, hcb⟩
  have hblt := h b hb
  simp only [List.mem_cons, List.not_mem_nil, or_false] at hcb
  rcases hcb with hcb | hcb
  · exact hexDigit_ne_colon (b / 16) (by omega) hcb.symm
  · exact hexDigit_ne_colon (b % 16) (by omega) hcb.symm

theorem splitCharAux_ne_nil (sep : Char) :
    ∀ (xs acc : List Char), splitCharAux sep xs acc ≠ [] := by
  intro xs
  induction xs with
  | nil => intro acc; simp [splitCharAux]
  | cons c rest ih =>
      intro acc
      by_cases hc : c = sep
      · simp [splitCharAux, hc]
      · simp only [splitCharAux, if_neg hc]
        exact ih (c :: acc)

theorem jsSplit_head (sep : Char) (s : String) :
    (jsSplit sep s).headD "" = String.mk (s.data.takeWhile (fun c => !(c == sep))) := by
  unfold jsSplit
  cases hsp : splitCharAux sep s.data [] with
  | nil => exact absurd hsp (splitCharAux_ne_nil sep s.data [])
  | cons a t =>
      have hh := splitCharAux_head sep s.data []
      rw [hsp] at hh
      simp only [List.headD_cons, List.reverse_nil, List.nil_append] at hh
      simp [hh]

theorem jsSplit_no_sep (sep : Char) (s : String) (h : sep ∉ s.data) :
    jsSplit sep s = [s] := by
  unfold jsSplit
  rw [splitCharAux_no_sep sep s.data [] h]
  simp only [List.reverse_nil, List.nil_append, List.map_cons, List.map_nil]

theorem mem_addAuthenticatedRoom (s : SessionData) (a r : String) :
    r ∈ (addAuthenticatedRoom s a).authenticatedRooms
      ↔ r ∈ s.authenticatedRooms ∨ r = a := by
  unfold addAuthenticatedRoom
  by_cases h : s.authenticatedRooms.contains a
  · rw [if_pos h]
    have ha : a ∈ s.authenticatedRooms := by simpa using h
    constructor
    · exact fun hr => Or.inl hr
    · rintro (hr | rfl)
      · exact hr
      · exact ha
  · rw [if_neg h]
    simp

theorem addAuthenticatedRoom_self_mem (s : SessionData) (roomId : String) :
    roomId ∈ (addAuthenticatedRoom s roomId).authenticatedRooms :=
  (mem_addAuthenticatedRoom s roomId roomId).2 (Or.inr rfl)

theorem nodup_addAuthenticatedRoom (s : SessionData) (a : String)
    (h : s.authenticatedRooms.Nodup) :
    (addAuthenticatedRoom s a).authenticatedRooms.Nodup := by
  unfold addAuthenticatedRoom
  by_cases hc : s.authenticatedRooms.contains a
  · rw [if_pos hc]; exact h
  · rw [if_neg hc]
    have ha : a ∉ s.authenticatedRooms := by simpa using hc
    simp [List.nodup_append, h, ha]

/-! ## Claim theorems -/

/-- C2: for every password, verification succeeds on the stored value
produced by hashPassword: the stored value is `salt:hash` with the hex
salt and the hex PBKDF2-SHA-512 (10,000 iterations, 64 bytes) key;
verifyPassword splits on the colon, re-derives with the stored salt and
the same parameters and compares the hex strings. -/
theorem c2_hash_verify_roundtrip (pb : Pbkdf2) (saltBytes : List Nat) (password : String)
    (hsalt : ∀ x ∈ saltBytes, x < 256)
    (hkey : ∀ x ∈ pb password (hexEncode saltBytes) 10000 64 "sha512", x < 256) :
    RoomsJoin.verifyPassword pb password
      (RoomsCreate.hashPassword pb saltBytes password) = true := by
  unfold RoomsCreate.hashPassword RoomsJoin.verifyPassword
  have hsplit := jsSplit_colon_pair (hexEncode saltBytes)
      (hexEncode (pb password (hexEncode saltBytes) 10000 64 "sha512"))
      (hexEncode_no_colon _ hsalt) (hexEncode_no_colon _ hkey)
  simp only [hsplit]
  simp

/-- C2 witness: a concrete password, salt and PBKDF2 instance. -/
theorem c2_witness :
    RoomsJoin.verifyPassword (fun _ _ _ _ _ => [1, 2]) "pw"
      (RoomsCreate.hashPassword (fun _ _ _ _ _ => [1, 2]) [0] "pw") = true :=
  c2_hash_verify_roundtrip (fun _ _ _ _ _ => [1, 2]) [0] "pw"
    (by decide) (by decide)

/-- C3: decryptMessage is a total function of its inputs (the thrown
error of the platform call is the `none` case of `decryptAttempt`, caught
by the handler) and returns the fixed sentinel on every failure:
malformed base64 of either argument or a rejected AES-GCM decryption. -/
theorem c3_decrypt_never_throws (A : AesGcm) (td : List Nat → String)
    (encryptedText iv : String) (key : List Nat) :
    (decryptAttempt A td encryptedText iv key = none →
      decryptMessage A td encryptedText iv key = "[Encrypted message - cannot decrypt]")
    ∧ (base64Decode encryptedText = none → decryptAttempt A td encryptedText iv key = none)
    ∧ (base64Decode iv = none → decryptAttempt A td encryptedText iv key = none)
    ∧ (∀ cb ib, base64Decode encryptedText = some cb → base64Decode iv = some ib →
        A.dec key ib cb = none → decryptAttempt A td encryptedText iv key = none)
    ∧ (decryptMessage A td encryptedText iv key = "[Encrypted message - cannot decrypt]"
        ∨ ∃ s, decryptAttempt A td encryptedText iv key = some s
            ∧ decryptMessage A td encryptedText iv key = s) := by
  refine ⟨?_, ?_, ?_, ?_, ?_⟩
  · intro h; unfold decryptMessage; rw [h]
  · intro h; unfold decryptAttempt; rw [h]
  · intro h
    unfold decryptAttempt
    cases hct : base64Decode encryptedText with
    | none => rfl
    | some cb => rw [h]
  · intro cb ib hct hiv hdec
    unfold decryptAttempt
    rw [hct, hiv]
    show (match A.dec key ib cb with
          | none => none
          | some decryptedBuffer => some (td decryptedBuffer)) = none
    rw [hdec]
  · cases hda : decryptAttempt A td encryptedText iv key with
    | none =>
        left
        unfold decryptMessage
        rw [hda]
    | some s =>
        right
        refine ⟨s, rfl, ?_⟩
        unfold decryptMessage
        rw [hda]

/-- C3 witness: malformed base64 ciphertext yields the sentinel. -/
theorem c3_witness :
    decryptMessage ⟨fun _ _ pt => pt, fun _ _ ct => some ct⟩ (fun _ => "x") "%" "" []
      = "[Encrypted message - cannot decrypt]" :=
  (c3_decrypt_never_throws ⟨fun _ _ pt => pt, fun _ _ ct => some ct⟩
    (fun _ => "x") "%" "" []).1 (by decide)

/-- C10: the rate-limit key function returns the constant loopback
address when the forwarded-for header is absent or blank (all such
requests share one bucket, whatever their origin), and otherwise the
trimmed first comma-separated entry of the client-supplied header, so
equal header values map to the same bucket. -/
theorem c10_get_token (s : String) :
    getToken none = "127.0.0.1"
    ∧ (jsTrim s = "" → getToken (some s) = "127.0.0.1")
    ∧ (jsTrim s ≠ "" →
        getToken (some s) = jsTrim (String.mk (s.data.takeWhile (fun c => !(c == ',')))))
    ∧ (∀ s₂ : String, s = s₂ → getToken (some s) = getToken (some s₂)) := by
  refine ⟨rfl, ?_, ?_, ?_⟩
  · intro h
    simp only [getToken]
    by_cases hs : s = ""
    · rw [if_pos hs]
    · rw [if_neg hs, if_pos h]
  · intro h
    have hs : s ≠ "" := fun he => h (by rw [he]; rfl)
    simp only [getToken]
    rw [if_neg hs, if_neg h, jsSplit_head]
  · intro s₂ he
    rw [he]

/-- C10 witness: a concrete header with two entries keys on the first. -/
theorem c10_witness :
    getToken (some "1.2.3.4, 5.6.7.8")
      = jsTrim (String.mk ("1.2.3.4, 5.6.7.8".data.takeWhile (fun c => !(c == ',')))) :=
  (c10_get_token "1.2.3.4, 5.6.7.8").2.2.1 (by decide)

/-- C1: for a platform cipher satisfying the AES-GCM functional contract
(decryption with the same key and IV inverts encryption, and for a fixed
key and plaintext distinct IVs give distinct ciphertexts, as in GCM) and
a text codec that round-trips the message, decryptMessage recovers the
plaintext from encryptMessage's output; each call's IV is exactly the
12-byte random draw, so two calls with distinct draws yield different IVs
and different ciphertexts. -/
theorem c1_encrypt_decrypt_roundtrip
    (A : AesGcm) (te : String → List Nat) (td : List Nat → String)
    (rngA rngB : Nat → List Nat) (m : String) (key : List Nat)
    (hivA : ∀ x ∈ rngA 12, x < 256) (hivB : ∀ x ∈ rngB 12, x < 256)
    (hctA : ∀ x ∈ A.enc key (rngA 12) (te m), x < 256)
    (hctB : ∀ x ∈ A.enc key (rngB 12) (te m), x < 256)
    (hdec : A.dec key (rngA 12) (A.enc key (rngA 12) (te m)) = some (te m))
    (htd : td (te m) = m)
    (hivne : rngA 12 ≠ rngB 12)
    (hctne : A.enc key (rngA 12) (te m) ≠ A.enc key (rngB 12) (te m)) :
    decryptMessage A td (encryptMessage A te rngA m key).encryptedText
        (encryptMessage A te rngA m key).iv key = m
    ∧ (encryptMessage A te rngA m key).iv ≠ (encryptMessage A te rngB m key).iv
    ∧ (encryptMessage A te rngA m key).encryptedText
        ≠ (encryptMessage A te rngB m key).encryptedText := by
  have heA : (encryptMessage A te rngA m key).encryptedText
      = base64Encode (A.enc key (rngA 12) (te m)) := rfl
  have hiA : (encryptMessage A te rngA m key).iv = base64Encode (rngA 12) := rfl
  have heB : (encryptMessage A te rngB m key).encryptedText
      = base64Encode (A.enc key (rngB 12) (te m)) := rfl
  have hiB : (encryptMessage A te rngB m key).iv = base64Encode (rngB 12) := rfl
  refine ⟨?_, ?_, ?_⟩
  · rw [heA, hiA]
    have hatt : decryptAttempt A td (base64Encode (A.enc key (rngA 12) (te m)))
        (base64Encode (rngA 12)) key = some m := by
      unfold decryptAttempt
      rw [base64_roundtrip _ hctA]
      show (match base64Decode (base64Encode (rngA 12)) with
            | none => none
            | some ivBuffer =>
                match A.dec key ivBuffer (A.enc key (rngA 12) (te m)) with
                | none => none
                | some decryptedBuffer => some (td decryptedBuffer)) = some m
      rw [base64_roundtrip _ hivA]
      show (match A.dec key (rngA 12) (A.enc key (rngA 12) (te m)) with
            | none => none
            | some decryptedBuffer => some (td decryptedBuffer)) = some m
      rw [hdec]
      show some (td (te m)) = some m
      rw [htd]
    unfold decryptMessage
    rw [hatt]
  · rw [hiA, hiB]
    exact base64Encode_inj hivA hivB hivne
  · rw [heA, heB]
    exact base64Encode_inj hctA hctB hctne

/-- C1 witness cipher: prepend the IV to the plaintext; decryption checks
and removes it. Satisfies the round-trip and IV-injectivity contract at
the witness inputs. -/
def c1A : AesGcm :=
  { enc := fun _ iv pt => iv ++ pt,
    dec := fun _ iv ct => if ct.take 12 = iv then some (ct.drop 12) else none }

/-- C1 witness text encoder: char codes. -/
def c1te (s : String) : List Nat := s.data.map Char.toNat

/-- C1 witness text decoder: chars from codes. -/
def c1td (l : List Nat) : String := String.mk (l.map Char.ofNat)

/-- C1 witness random draw for the first call. -/
def c1rngA (_ : Nat) : List Nat := [0, 0, 0, 0, 0, 0, 0, 0, 0, 0, 0, 0]

/-- C1 witness random draw for the second call. -/
def c1rngB (_ : Nat) : List Nat := [1, 0, 0, 0, 0, 0, 0, 0, 0, 0, 0, 0]

/-- C1 witness: the round trip and both distinctness facts at a concrete
message, key, cipher and pair of random draws. -/
theorem c1_witness :
    decryptMessage c1A c1td
        (encryptMessage c1A c1te c1rngA "hi" []).encryptedText
        (encryptMessage c1A c1te c1rngA "hi" []).iv [] = "hi"
    ∧ (encryptMessage c1A c1te c1rngA "hi" []).iv
        ≠ (encryptMessage c1A c1te c1rngB "hi" []).iv
    ∧ (encryptMessage c1A c1te c1rngA "hi" []).encryptedText
        ≠ (encryptMessage c1A c1te c1rngB "hi" []).encryptedText :=
  c1_encrypt_decrypt_roundtrip c1A c1te c1td c1rngA c1rngB "hi" []
    (by decide) (by decide) (by decide) (by decide) (by decide) (by decide)
    (by decide) (by decide)

namespace RateLimit

/-- Calls whose timestamps all lie in one interval-length window never
age each other out, so the accepted count is capped exactly at the
remaining capacity. -/
theorem runCalls_window (interval limit : Nat) (hint : 0 < interval) (t0 : Nat) :
    ∀ (times s : List Nat),
      (∀ t ∈ times, t0 ≤ t ∧ t < t0 + interval) →
      (∀ t ∈ s, t0 ≤ t ∧ t < t0 + interval) →
      s.length ≤ limit →
      (runCalls interval limit s times).2 = min times.length (limit - s.length) := by
  intro times
  induction times with
  | nil =>
      intro s _ _ _
      simp [runCalls]
  | cons now rest ih =>
      intro s htimes hs hlen
      have hnow := htimes now (List.mem_cons_self now rest)
      have hrest : ∀ t ∈ rest, t0 ≤ t ∧ t < t0 + interval :=
        fun t ht => htimes t (List.mem_cons_of_mem now ht)
      have hfilter : s.filter (fun t => now - t < interval) = s := by
        apply List.filter_eq_self.mpr
        intro t ht
        have := hs t ht
        simp only [decide_eq_true_eq]
        omega
      unfold runCalls checkStep
      simp only [hfilter]
      by_cases hcap : limit ≤ s.length
      · rw [if_pos hcap]
        simp only []
        rw [ih s hrest hs hlen]
        have : s.length = limit := le_antisymm hlen hcap
        simp [this]
      · rw [if_neg hcap]
        simp only []
        have hs' : ∀ t ∈ s ++ [now], t0 ≤ t ∧ t < t0 + interval := by
          intro t ht
          rcases List.mem_append.1 ht with ht | ht
          · exact hs t ht
          · simp only [List.mem_singleton] at ht
            subst ht
            exact hnow
        have hlen' : (s ++ [now]).length ≤ limit := by
          simp only [List.length_append, List.length_singleton]
          omega
        rw [ih (s ++ [now]) hrest hs' hlen']
        simp [List.length_append]
        omega

end RateLimit

/-- C4: the rate limiter's check has sliding-window semantics: it drops
timestamps older than the interval, rejects with the cache untouched when
the remaining count is at or above the limit, and otherwise records the
current timestamp and accepts. Consequently, of any sequence of calls for
one key inside one interval-length window starting from an empty bucket,
exactly `min count limit` are accepted (so `limit` succeed and the next
fails), a full bucket of still-fresh timestamps rejects, and once the
oldest accepted timestamp has aged a full interval one slot frees up. -/
theorem c4_rate_limiter (interval limit : Nat) (hint : 0 < interval) :
    (∀ (ts : List Nat) (now : Nat),
        (limit ≤ (ts.filter (fun t => now - t < interval)).length →
          RateLimit.checkStep interval limit ts now = (false, ts))
        ∧ ((ts.filter (fun t => now - t < interval)).length < limit →
          RateLimit.checkStep interval limit ts now
            = (true, ts.filter (fun t => now - t < interval) ++ [now])))
    ∧ (∀ (t0 : Nat) (times : List Nat),
        (∀ t ∈ times, t0 ≤ t ∧ t < t0 + interval) →
        (RateLimit.runCalls interval limit [] times).2 = min times.length limit)
    ∧ (∀ (s : List Nat) (now : Nat),
        (∀ t ∈ s, now - t < interval) → s.length = limit →
        (RateLimit.checkStep interval limit s now).1 = false)
    ∧ (∀ (told : Nat) (rest : List Nat) (now : Nat),
        told + interval ≤ now → (∀ t ∈ rest, now - t < interval) →
        rest.length + 1 = limit →
        (RateLimit.checkStep interval limit (told :: rest) now).1 = true
          ∧ (RateLimit.checkStep interval limit (told :: rest) now).2 = rest ++ [now]) := by
  refine ⟨?_, ?_, ?_, ?_⟩
  · intro ts now
    constructor
    · intro h
      unfold RateLimit.checkStep
      rw [if_pos h]
    · intro h
      unfold RateLimit.checkStep
      rw [if_neg (by omega)]
  · intro t0 times htimes
    have := RateLimit.runCalls_window interval limit hint t0 times [] htimes
      (by intro t ht; simp at ht) (by simp)
    simpa using this
  · intro s now hvalid hfull
    have hfilter : s.filter (fun t => now - t < interval) = s := by
      apply List.filter_eq_self.mpr
      intro t ht
      simpa using hvalid t ht
    unfold RateLimit.checkStep
    simp only [hfilter]
    rw [if_pos (by omega)]
  · intro told rest now hold hvalid hfull
    have hfilter : (told :: rest).filter (fun t => now - t < interval) = rest := by
      rw [List.filter_cons,
        if_neg (by simp only [decide_eq_true_eq]; omega)]
      apply List.filter_eq_self.mpr
      intro t ht
      simpa using hvalid t ht
    unfold RateLimit.checkStep
    simp only [hfilter]
    rw [if_neg (by omega)]
    exact ⟨rfl, rfl⟩

/-- C4 witness: limit 2, interval 100: of four calls at times 0, 1, 2, 3
exactly two are accepted. -/
theorem c4_witness :
    (RateLimit.runCalls 100 2 [] [0, 1, 2, 3]).2 = min 4 2 :=
  (c4_rate_limiter 100 2 (by decide)).2.1 0 [0, 1, 2, 3] (by decide)

/-- C5: for any sanitizer satisfying DOMPurify's contract with no allowed
tags (its output never contains a script tag), an unencrypted message is
stored as the sanitized text, which has no script tag; an XSS-attempt
event is logged whenever sanitization changed the text or the text
matched the suspicious-content regex — in particular the regex matches
`"<script>alert(1)</script>"`; a message flagged encrypted with a
(truthy) IV is stored as-is with no event. -/
theorem c5_send_sanitization (sanitize : String → String)
    (hsan : ∀ s, hasScriptTag (sanitize s) = false)
    (text : String) (encrypted : Option Bool) (iv : Option String) :
    ((encTruthy encrypted && ivTruthy iv) = false →
        (sendMessageStore sanitize text encrypted iv).1 = sanitize text
        ∧ hasScriptTag (sendMessageStore sanitize text encrypted iv).1 = false
        ∧ ((sanitize text ≠ text ∨ containsSuspicious text = true) →
            (sendMessageStore sanitize text encrypted iv).2 = true))
    ∧ ((encTruthy encrypted && ivTruthy iv) = true →
        sendMessageStore sanitize text encrypted iv = (text, false))
    ∧ containsSuspicious "<script>alert(1)</script>" = true := by
  refine ⟨?_, ?_, ?_⟩
  · intro h
    have hstore : sendMessageStore sanitize text encrypted iv
        = (sanitize text, containsSuspicious text || !(sanitize text == text)) := by
      unfold sendMessageStore
      rw [h]
      simp
    refine ⟨by rw [hstore], by rw [hstore]; exact hsan text, ?_⟩
    rintro (hch | hch)
    · have hb : (sanitize text == text) = false := beq_eq_false_iff_ne.mpr hch
      rw [hstore]
      simp [hb]
    · rw [hstore]
      simp [hch]
  · intro h
    unfold sendMessageStore
    rw [h]
    simp
  · decide

/-- C5 witness: the script-tag example, unencrypted, with a sanitizer
that empties the text: stored text is the sanitizer output and the XSS
event fires. -/
theorem c5_witness :
    (sendMessageStore (fun _ => "") "<script>alert(1)</script>" none none).1 = ""
    ∧ (sendMessageStore (fun _ => "") "<script>alert(1)</script>" none none).2 = true := by
  have h := c5_send_sanitization (fun _ => "") (fun _ => rfl)
    "<script>alert(1)</script>" none none
  obtain ⟨h1, _, h3⟩ := h
  obtain ⟨ha, _, hc⟩ := h1 (by decide)
  exact ⟨ha, hc (Or.inr h3)⟩

/-- C6: the join handler returns 404 `Room not found` when the room does
not exist; a delayed 401 `Incorrect password` when the stored hash does
not verify; and on success a 200 carrying the roomId, the room name and a
userName, with the room added to the saved session's authenticated
rooms. -/
theorem c6_join_room (pb : Pbkdf2) (stored : SessionData) (uid tok : String)
    (req : RoomsJoin.JoinRequest) (room? : Option RoomData)
    (hschema : RoomsJoin.schemaOk req = true) :
    (room? = none →
        (RoomsJoin.post pb true stored uid tok req room?).status = 404
        ∧ (RoomsJoin.post pb true stored uid tok req room?).error = some "Room not found"
        ∧ (RoomsJoin.post pb true stored uid tok req room?).delayed = true)
    ∧ (∀ room, room? = some room →
        RoomsJoin.verifyPassword pb req.password room.passwordHash = false →
        (RoomsJoin.post pb true stored uid tok req room?).delayed = true
        ∧ (RoomsJoin.post pb true stored uid tok req room?).status = 401
        ∧ (RoomsJoin.post pb true stored uid tok req room?).error = some "Incorrect password")
    ∧ (∀ room, room? = some room →
        RoomsJoin.verifyPassword pb req.password room.passwordHash = true →
        (RoomsJoin.post pb true stored uid tok req room?).status = 200
        ∧ (RoomsJoin.post pb true stored uid tok req room?).roomId = some req.roomId
        ∧ (RoomsJoin.post pb true stored uid tok req room?).name = some room.name
        ∧ ((RoomsJoin.post pb true stored uid tok req room?).userName).isSome = true
        ∧ req.roomId ∈
            ((RoomsJoin.post pb true stored uid tok req room?).store).authenticatedRooms) := by
  refine ⟨?_, ?_, ?_⟩
  · intro hroom
    subst hroom
    unfold RoomsJoin.post
    simp [hschema]
  · intro room hroom hpw
    subst hroom
    unfold RoomsJoin.post
    simp [hschema, hpw]
  · intro room hroom hpw
    subst hroom
    unfold RoomsJoin.post
    simp only [Bool.not_true, Bool.false_eq_true, if_false, hschema, hpw]
    refine ⟨by trivial, by trivial, by trivial, by rfl, ?_⟩
    exact addAuthenticatedRoom_self_mem _ req.roomId

/-- C6 witness: wrong password on a concrete room gives the delayed
401. -/
theorem c6_witness :
    (RoomsJoin.post (fun _ _ _ _ _ => []) true
        ⟨"", "", [], false, ""⟩ "uid" "tok" ⟨"r1", "pw", "alice"⟩
        (some ⟨"Room", "nocolon"⟩)).delayed = true
    ∧ (RoomsJoin.post (fun _ _ _ _ _ => []) true
        ⟨"", "", [], false, ""⟩ "uid" "tok" ⟨"r1", "pw", "alice"⟩
        (some ⟨"Room", "nocolon"⟩)).status = 401
    ∧ (RoomsJoin.post (fun _ _ _ _ _ => []) true
        ⟨"", "", [], false, ""⟩ "uid" "tok" ⟨"r1", "pw", "alice"⟩
        (some ⟨"Room", "nocolon"⟩)).error = some "Incorrect password" :=
  (c6_join_room (fun _ _ _ _ _ => []) ⟨"", "", [], false, ""⟩ "uid" "tok"
    ⟨"r1", "pw", "alice"⟩ (some ⟨"Room", "nocolon"⟩) (by decide)).2.1
    ⟨"Room", "nocolon"⟩ rfl (by decide)

/-- C7 counterexample: a request whose CSRF token is missing (the empty
string) differs from the logged-in session's token, yet the endpoint
rejects it with the zod validation error — HTTP 400
`CSRF token is required` — before the CSRF comparison is reached, not
with the HTTP 403 authorization error the claim asserts for every
differing token. -/
theorem c7_counterexample :
    verifyCsrfToken ⟨"u", "alice", [], true, "tokA"⟩ "" = false
    ∧ (AuthRoom.post (fun _ _ _ _ _ => []) true ⟨"u", "alice", [], true, "tokA"⟩
        ⟨"r1", "pw", ""⟩ none).status = 400
    ∧ ¬((AuthRoom.post (fun _ _ _ _ _ => []) true ⟨"u", "alice", [], true, "tokA"⟩
        ⟨"r1", "pw", ""⟩ none).status = 403)
    ∧ (AuthRoom.post (fun _ _ _ _ _ => []) true ⟨"u", "alice", [], true, "tokA"⟩
        ⟨"r1", "pw", ""⟩ none).error = some "CSRF token is required" := by
  decide

/-- C7 amended: a missing (absent or empty) CSRF token is rejected by
schema validation with 400 `CSRF token is required` before the CSRF
comparison and without checking the password; a present-but-wrong token
(differing from the session's) is rejected with 403 `Invalid CSRF token`,
also without checking the password; `verifyCsrfToken` is exact string
equality; a not-logged-in request gets 401, so all three failures are
mutually distinguishable. -/
theorem c7_amended_csrf_handling (pb : Pbkdf2) (stored : SessionData)
    (req : AuthRoom.AuthRequest) (room? : Option RoomData)
    (hlog : stored.isLoggedIn = true) :
    (req.roomId ≠ "" → req.password ≠ "" → req.csrfToken = "" →
        (AuthRoom.post pb true stored req room?).status = 400
        ∧ (AuthRoom.post pb true stored req room?).error = some "CSRF token is required"
        ∧ (AuthRoom.post pb true stored req room?).passwordChecked = false)
    ∧ (AuthRoom.schemaOk req = true → stored.csrfToken ≠ req.csrfToken →
        (AuthRoom.post pb true stored req room?).status = 403
        ∧ (AuthRoom.post pb true stored req room?).error = some "Invalid CSRF token"
        ∧ (AuthRoom.post pb true stored req room?).passwordChecked = false)
    ∧ (∀ (s : SessionData) (t : String), verifyCsrfToken s t = (s.csrfToken == t))
    ∧ (∀ stored₂ : SessionData, stored₂.isLoggedIn = false →
        (AuthRoom.post pb true stored₂ req room?).status = 401)
    ∧ (403 : Nat) ≠ 401 ∧ (400 : Nat) ≠ 403 := by
  have hsess : getSessionFrom stored = stored := by
    unfold getSessionFrom
    rw [if_pos hlog]
  refine ⟨?_, ?_, fun s t => rfl, ?_, by decide, by decide⟩
  · intro hr hp hc
    have hschema : AuthRoom.schemaOk req = false := by
      unfold AuthRoom.schemaOk
      simp [hc]
    have herr : AuthRoom.schemaError req = "CSRF token is required" := by
      unfold AuthRoom.schemaError
      rw [if_neg (by simp [hr]), if_neg (by simp [hp])]
    unfold AuthRoom.post
    rw [hsess]
    simp [hlog, hschema, herr]
  · intro hschema hcsrf
    have hbeq : (stored.csrfToken == req.csrfToken) = false := beq_eq_false_iff_ne.mpr hcsrf
    unfold AuthRoom.post
    rw [hsess]
    simp [hlog, hschema, hbeq]
  · intro stored₂ hnolog
    have hsess₂ : (getSessionFrom stored₂).isLoggedIn = false := by
      unfold getSessionFrom
      rw [if_neg (by simp [hnolog])]
    unfold AuthRoom.post
    simp [hsess₂]

/-- C7 witness: on a concrete logged-in session, a concrete missing token
gives the 400 validation error and a concrete wrong token gives 403, the
password unchecked in both cases. -/
theorem c7_witness :
    ((AuthRoom.post (fun _ _ _ _ _ => []) true ⟨"u", "alice", [], true, "tokA"⟩
        ⟨"r1", "pw", ""⟩ none).status = 400
      ∧ (AuthRoom.post (fun _ _ _ _ _ => []) true ⟨"u", "alice", [], true, "tokA"⟩
        ⟨"r1", "pw", ""⟩ none).error = some "CSRF token is required"
      ∧ (AuthRoom.post (fun _ _ _ _ _ => []) true ⟨"u", "alice", [], true, "tokA"⟩
        ⟨"r1", "pw", ""⟩ none).passwordChecked = false)
    ∧ ((AuthRoom.post (fun _ _ _ _ _ => []) true ⟨"u", "alice", [], true, "tokA"⟩
        ⟨"r1", "pw", "tokB"⟩ none).status = 403
      ∧ (AuthRoom.post (fun _ _ _ _ _ => []) true ⟨"u", "alice", [], true, "tokA"⟩
        ⟨"r1", "pw", "tokB"⟩ none).error = some "Invalid CSRF token"
      ∧ (AuthRoom.post (fun _ _ _ _ _ => []) true ⟨"u", "alice", [], true, "tokA"⟩
        ⟨"r1", "pw", "tokB"⟩ none).passwordChecked = false) :=
  ⟨(c7_amended_csrf_handling (fun _ _ _ _ _ => []) ⟨"u", "alice", [], true, "tokA"⟩
      ⟨"r1", "pw", ""⟩ none (by decide)).1 (by decide) (by decide) (by decide),
   (c7_amended_csrf_handling (fun _ _ _ _ _ => []) ⟨"u", "alice", [], true, "tokA"⟩
      ⟨"r1", "pw", "tokB"⟩ none (by decide)).2.1 (by decide) (by decide)⟩

theorem foldl_addAuthenticatedRoom_nodup (rs : List String) :
    ∀ s : SessionData, s.authenticatedRooms.Nodup →
      ((rs.foldl addAuthenticatedRoom s).authenticatedRooms).Nodup := by
  induction rs with
  | nil => intro s h; exact h
  | cons a rest ih =>
      intro s h
      exact ih _ (nodup_addAuthenticatedRoom s a h)

theorem foldl_addAuthenticatedRoom_mem (rs : List String) :
    ∀ (s : SessionData) (r : String),
      r ∈ (rs.foldl addAuthenticatedRoom s).authenticatedRooms
        ↔ r ∈ s.authenticatedRooms ∨ r ∈ rs := by
  induction rs with
  | nil => intro s r; simp
  | cons a rest ih =>
      intro s r
      rw [List.foldl_cons, ih, mem_addAuthenticatedRoom]
      simp only [List.mem_cons]
      tauto

/-- C8: `addAuthenticatedRoom` is the only appending operation and is
idempotent — adding a present room id is a no-op — so a session built by
any sequence of adds from a freshly created session has a duplicate-free
`authenticatedRooms`; `isRoomAuthenticated` is a pure membership check,
false on the empty list and true exactly for previously added room
ids. -/
theorem c8_no_duplicate_rooms (s : SessionData) (roomId userName uid tok : String)
    (rs : List String) :
    (roomId ∈ s.authenticatedRooms → addAuthenticatedRoom s roomId = s)
    ∧ (s.authenticatedRooms.Nodup →
        ((rs.foldl addAuthenticatedRoom s).authenticatedRooms).Nodup)
    ∧ (s.authenticatedRooms = [] → isRoomAuthenticated s roomId = false)
    ∧ (isRoomAuthenticated (rs.foldl addAuthenticatedRoom (createSession userName uid tok))
        roomId = true ↔ roomId ∈ rs) := by
  refine ⟨?_, foldl_addAuthenticatedRoom_nodup rs s, ?_, ?_⟩
  · intro h
    unfold addAuthenticatedRoom
    rw [if_pos (by simpa using h)]
  · intro h
    unfold isRoomAuthenticated
    rw [h]
    rfl
  · have hmem := foldl_addAuthenticatedRoom_mem rs (createSession userName uid tok) roomId
    unfold isRoomAuthenticated
    constructor
    · intro hc
      rcases hmem.1 (by simpa using hc) with h | h
      · simp [createSession] at h
      · exact h
    · intro hr
      have := hmem.2 (Or.inr hr)
      simpa using this

/-- C8 witness: re-adding a present room id is a no-op, and membership
holds after the adds that inserted it. -/
theorem c8_witness :
    addAuthenticatedRoom ⟨"u", "n", ["r1"], true, "t"⟩ "r1"
      = ⟨"u", "n", ["r1"], true, "t"⟩
    ∧ (isRoomAuthenticated
        (["r1", "r2"].foldl addAuthenticatedRoom (createSession "n" "u" "t")) "r1" = true
        ↔ "r1" ∈ ["r1", "r2"]) := by
  have h := c8_no_duplicate_rooms ⟨"u", "n", ["r1"], true, "t"⟩ "r1" "n" "u" "t" ["r1", "r2"]
  exact ⟨h.1 (by decide), h.2.2.2⟩

theorem authVerify_malformed (pb : Pbkdf2) (password storedHash : String)
    (hnc : ':' ∉ storedHash.data) :
    AuthRoom.verifyPassword pb password storedHash = .error "Invalid hash format" := by
  unfold AuthRoom.verifyPassword
  rw [jsSplit_no_sep ':' storedHash hnc]
  simp

theorem joinVerify_malformed (pb : Pbkdf2) (password storedHash : String)
    (hnc : ':' ∉ storedHash.data) :
    RoomsJoin.verifyPassword pb password storedHash = false := by
  unfold RoomsJoin.verifyPassword
  rw [jsSplit_no_sep ':' storedHash hnc]
  simp

/-- C9 counterexample: a malformed stored hash (no colon) on the
room-authentication endpoint produces the generic internal-error
response — HTTP 500 `Failed to authenticate for room` — not an
invalid-credentials response (401 `Incorrect password`), so the thrown
verification error is not treated as "invalid credentials". -/
theorem c9_counterexample :
    (AuthRoom.post (fun _ _ _ _ _ => []) true ⟨"u", "alice", [], true, "tok"⟩
        ⟨"room1", "pw", "tok"⟩ (some ⟨"Room", "deadbeef"⟩)).status = 500
    ∧ ¬((AuthRoom.post (fun _ _ _ _ _ => []) true ⟨"u", "alice", [], true, "tok"⟩
        ⟨"room1", "pw", "tok"⟩ (some ⟨"Room", "deadbeef"⟩)).status = 401)
    ∧ (AuthRoom.post (fun _ _ _ _ _ => []) true ⟨"u", "alice", [], true, "tok"⟩
        ⟨"room1", "pw", "tok"⟩ (some ⟨"Room", "deadbeef"⟩)).error
        = some "Failed to authenticate for room"
    ∧ (AuthRoom.post (fun _ _ _ _ _ => []) true ⟨"u", "alice", [], true, "tok"⟩
        ⟨"room1", "pw", "tok"⟩ (some ⟨"Room", "deadbeef"⟩)).error
        ≠ some "Incorrect password" := by
  decide

/-- C9 amended: on a stored hash missing the colon separator, the
auth-room route's verifyPassword throws `Invalid hash format` while the
join route's produces an undefined hash comparand and returns false; the
auth-room handler's catch-all maps the thrown error to the fixed generic
500 `Failed to authenticate for room` (an internal error, not an
invalid-credentials response), and the join handler returns 401
`Incorrect password`; both responses are fixed strings that do not reveal
which part of verification failed. -/
theorem c9_amended (pb : Pbkdf2) (password storedHash : String)
    (hnc : ':' ∉ storedHash.data)
    (stored : SessionData) (reqA : AuthRoom.AuthRequest) (reqJ : RoomsJoin.JoinRequest)
    (room : RoomData) (uid tok : String)
    (hlog : stored.isLoggedIn = true)
    (hschemaA : AuthRoom.schemaOk reqA = true)
    (hcsrf : stored.csrfToken = reqA.csrfToken)
    (hnotauth : isRoomAuthenticated stored reqA.roomId = false)
    (hschemaJ : RoomsJoin.schemaOk reqJ = true)
    (hhash : room.passwordHash = storedHash) :
    AuthRoom.verifyPassword pb password storedHash = .error "Invalid hash format"
    ∧ RoomsJoin.verifyPassword pb password storedHash = false
    ∧ (AuthRoom.post pb true stored reqA (some room)).status = 500
    ∧ (AuthRoom.post pb true stored reqA (some room)).error
        = some "Failed to authenticate for room"
    ∧ (RoomsJoin.post pb true stored uid tok reqJ (some room)).status = 401
    ∧ (RoomsJoin.post pb true stored uid tok reqJ (some room)).error
        = some "Incorrect password" := by
  have hsess : getSessionFrom stored = stored := by
    unfold getSessionFrom
    rw [if_pos hlog]
  have hbeq : (stored.csrfToken == reqA.csrfToken) = true := by simp [hcsrf]
  have hA := authVerify_malformed pb reqA.password storedHash hnc
  have hJ := joinVerify_malformed pb reqJ.password storedHash hnc
  refine ⟨authVerify_malformed pb password storedHash hnc,
    joinVerify_malformed pb password storedHash hnc, ?_, ?_, ?_, ?_⟩
  · unfold AuthRoom.post
    rw [hsess]
    simp [hlog, hschemaA, hbeq, hnotauth, hhash, hA]
  · unfold AuthRoom.post
    rw [hsess]
    simp [hlog, hschemaA, hbeq, hnotauth, hhash, hA]
  · unfold RoomsJoin.post
    simp [hschemaJ, hhash, hJ]
  · unfold RoomsJoin.post
    simp [hschemaJ, hhash, hJ]

/-- C9 witness: concrete sessions, requests and a colon-free stored
hash. -/
theorem c9_witness :
    AuthRoom.verifyPassword (fun _ _ _ _ _ => []) "pw" "nocolonhash"
      = .error "Invalid hash format"
    ∧ RoomsJoin.verifyPassword (fun _ _ _ _ _ => []) "pw" "nocolonhash" = false
    ∧ (AuthRoom.post (fun _ _ _ _ _ => []) true ⟨"u", "bob", [], true, "ctok"⟩
        ⟨"r9", "pw", "ctok"⟩ (some ⟨"R", "nocolonhash"⟩)).status = 500
    ∧ (AuthRoom.post (fun _ _ _ _ _ => []) true ⟨"u", "bob", [], true, "ctok"⟩
        ⟨"r9", "pw", "ctok"⟩ (some ⟨"R", "nocolonhash"⟩)).error
        = some "Failed to authenticate for room"
    ∧ (RoomsJoin.post (fun _ _ _ _ _ => []) true ⟨"u", "bob", [], true, "ctok"⟩
        "uid" "tok" ⟨"r9", "pw", "bob"⟩ (some ⟨"R", "nocolonhash"⟩)).status = 401
    ∧ (RoomsJoin.post (fun _ _ _ _ _ => []) true ⟨"u", "bob", [], true, "ctok"⟩
        "uid" "tok" ⟨"r9", "pw", "bob"⟩ (some ⟨"R", "nocolonhash"⟩)).error
        = some "Incorrect password" :=
  c9_amended (fun _ _ _ _ _ => []) "pw" "nocolonhash" (by decide)
    ⟨"u", "bob", [], true, "ctok"⟩ ⟨"r9", "pw", "ctok"⟩ ⟨"r9", "pw", "bob"⟩
    ⟨"R", "nocolonhash"⟩ "uid" "tok"
    (by decide) (by decide) (by decide) (by decide) (by decide) (by decide)

end Freepen
